import Mathlib

/-!
Verification of the orthanc-server browser client's data layer.

The development shallowly embeds the TypeScript source:
  * `src/unnamed/part_000` — three revisions of `src/api/orthanc.ts`,
    separated by document markers.  We call them V1 (lines 1-331),
    V2 (lines 333-877, the cache-based revision) and V3 (lines 879-1204,
    the direct revision).  Functions carry a `V1`/`V2`/`V3` suffix.
  * `src/orthanc-react/src/App.tsx` — the `visibleRows` filter engine.

JavaScript runtime values are modelled explicitly: JSON values as the
inductive `Json`, `Record<string,string>` objects as insertion-ordered
association lists, `JSON.parse` as a fuel-based parser over the standard
JSON grammar (restricted to integer numerals and without `\u` escapes,
which no claim exercises), `fetch` as an oracle of optional
`HttpResponse`s (`none` = network rejection), and thrown exceptions as
`Except Unit`.
-/

set_option autoImplicit false

namespace Orthanc

/-! ## JavaScript string primitives -/

/-- Whitespace recognised by `String.prototype.trim` (the ASCII part,
which covers every input the client produces). -/
def jsIsWs (c : Char) : Bool :=
  ([' ', '\t', '\n', '\x0d', '\x0b', '\x0c'] : List Char).contains c

/-- Model of `s.trim()`. -/
def jsTrim (s : String) : String :=
  ⟨(s.data.dropWhile jsIsWs).reverse.dropWhile jsIsWs |>.reverse⟩

/-- Model of `s.toLowerCase()` (ASCII case folding; the tag keys and
filter inputs the client compares are ASCII). -/
def jsToLower (s : String) : String :=
  ⟨s.data.map Char.toLower⟩

/-- Substring test on character lists, used to model `String.prototype.includes`. -/
def listInfix (needle : List Char) : List Char → Bool
  | [] => needle.isEmpty
  | c :: rest => needle.isPrefixOf (c :: rest) || listInfix needle rest

/-- Model of `hay.includes(needle)`. -/
def jsIncludes (hay needle : String) : Bool :=
  listInfix needle.data hay.data

/-- Property read on an insertion-ordered object (`o[k]`, `Map.get`):
the value at key `k`, if present. -/
def olookup {α : Type} (k : String) : List (String × α) → Option α
  | [] => none
  | p :: rest => if k == p.1 then some p.2 else olookup k rest

/-- Model of `s.startsWith(p)`. -/
def jsStartsWith (s p : String) : Bool :=
  p.data.isPrefixOf s.data

/-- Model of `s.endsWith(p)`. -/
def jsEndsWith (s p : String) : Bool :=
  p.data.isSuffixOf s.data

/-- Lexicographic comparison of character lists by code point, modelling
the JavaScript `<` operator on strings (code-unit order; identical to
code-point order on the strings compared here, whose left operand is
always ASCII). -/
def lexLt : List Char → List Char → Bool
  | [], [] => false
  | [], _ :: _ => true
  | _ :: _, [] => false
  | a :: as, b :: bs => decide (a.toNat < b.toNat) || (a == b && lexLt as bs)

/-- Model of the JavaScript string comparison `a < b`. -/
def jsStrLt (a b : String) : Bool :=
  lexLt a.data b.data

/-- Weak comparison `a <= b`, derived from `jsStrLt`. -/
def jsStrLe (a b : String) : Bool :=
  jsStrLt a b || a == b

/-! ## JSON values -/

/-- JSON values as produced by `JSON.parse`.  Numbers are restricted to
integers: the client never stores fractional numerals, and every claim
distinguishes numbers from objects only by shape. -/
inductive Json where
  | null : Json
  | bool : Bool → Json
  | num : Int → Json
  | str : String → Json
  | arr : List Json → Json
  | obj : List (String × Json) → Json
deriving Repr

/-- JavaScript truthiness of a JSON value. -/
def jsTruthy : Json → Bool
  | .null => false
  | .bool b => b
  | .num n => n != 0
  | .str s => s != ""
  | .arr _ => true
  | .obj _ => true

/-- Whether a JSON value is an object in the strict sense of the JSON
grammar (not an array, not null). -/
def Json.isObj : Json → Bool
  | .obj _ => true
  | _ => false

/-- Whether `typeof v === "object"` holds for a JSON value (`null` and
arrays are both `"object"` in JavaScript). -/
def jsTypeofObject : Json → Bool
  | .null => true
  | .arr _ => true
  | .obj _ => true
  | _ => false

/-- Hexadecimal digit used when serialising control characters (48 is
the code of the digit zero, 87 + 10 that of the letter a). -/
def hexDigit (n : Nat) : Char :=
  Char.ofNat (n + (if n < 10 then 48 else 87))

/-- The short escapes `JSON.stringify` emits, as character pairs
(the character to protect, the letter after the backslash). -/
def shortEscapes : List (Char × Char) :=
  [('"', '"'), ('\\', '\\'), ('\n', 'n'), ('\x0d', 'r'), ('\t', 't'),
   ('\x08', 'b'), ('\x0c', 'f')]

/-- Escape one character as `JSON.stringify` does inside string
literals: a short escape when one exists, a `\u00XX` escape for the
remaining control characters, the character itself otherwise. -/
def escapeChar (c : Char) : List Char :=
  match shortEscapes.find? (fun p => p.1 == c) with
  | some p => ['\\', p.2]
  | none =>
    if c.val < 0x20 then
      ['\\', 'u', '0', '0', hexDigit (c.toNat / 16), hexDigit (c.toNat % 16)]
    else [c]

/-- Serialise a string as a JSON string literal. -/
def stringifyStr (s : String) : String :=
  ⟨'"' :: (s.data.flatMap escapeChar) ++ ['"']⟩

mutual

/-- Model of `JSON.stringify` on JSON values. -/
def Json.stringify : Json → String
  | .null => "null"
  | .bool true => "true"
  | .bool false => "false"
  | .num n => toString n
  | .str s => stringifyStr s
  | .arr xs => ⟨'[' :: (stringifyList xs).data ++ [']']⟩
  | .obj fs => ⟨'\x7b' :: (stringifyFields fs).data ++ ['\x7d']⟩

/-- Comma-separated serialisation of array elements. -/
def stringifyList : List Json → String
  | [] => ""
  | [x] => x.stringify
  | x :: y :: rest => ⟨x.stringify.data ++ ',' :: (stringifyList (y :: rest)).data⟩

/-- Comma-separated serialisation of object fields. -/
def stringifyFields : List (String × Json) → String
  | [] => ""
  | [(k, v)] => ⟨(stringifyStr k).data ++ ':' :: v.stringify.data⟩
  | (k, v) :: f :: rest =>
      ⟨(stringifyStr k).data ++ ':' :: v.stringify.data ++ ',' :: (stringifyFields (f :: rest)).data⟩

end

/-! ## JavaScript object semantics

`Record<string,string>` values and JSON objects are insertion-ordered
maps.  Property assignment (`obj[k] = v`, object spread, duplicate keys
in a parsed literal) updates an existing key in place and appends a new
one; these lists therefore model the enumeration order JavaScript
guarantees for string keys. -/

/-- Property assignment on an insertion-ordered object. -/
def objInsert {α : Type} (o : List (String × α)) (k : String) (v : α) :
    List (String × α) :=
  if o.any (fun p => p.1 == k) then
    o.map (fun p => if p.1 == k then (k, v) else p)
  else o ++ [(k, v)]

/-- Model of the object spread `\x7b ...a, ...b \x7d`: assign every
entry of `b` onto `a` in order. -/
def objSpread {α : Type} (a b : List (String × α)) : List (String × α) :=
  b.foldl (fun acc p => objInsert acc p.1 p.2) a

/-- Own enumerable string-keyed properties of a JSON value, as consumed
by object spread and `Object.keys`: objects expose their fields, arrays
and strings their element indices, primitives nothing. -/
def jsOwnFields : Json → List (String × Json)
  | .obj fs => fs
  | .arr xs => xs.enum.map (fun p => (toString p.1, p.2))
  | .str s => s.data.enum.map (fun p => (toString p.1, Json.str ⟨[p.2]⟩))
  | _ => []

/-- Model of `Object.keys(v)`. -/
def jsKeys (v : Json) : List String :=
  (jsOwnFields v).map Prod.fst

/-- Model of `Object.prototype.hasOwnProperty.call(v, k)` (arrays and
strings additionally own a `length` property). -/
def jsHasOwn (v : Json) : String → Bool := fun k =>
  match v with
  | .obj fs => fs.any (fun p => p.1 == k)
  | .arr xs => k == "length" || (jsOwnFields (.arr xs)).any (fun p => p.1 == k)
  | .str s => k == "length" || (jsOwnFields (.str s)).any (fun p => p.1 == k)
  | _ => false

/-- View a `Record<string,string>` as a JSON object's field list. -/
def strEntries (m : List (String × String)) : List (String × Json) :=
  m.map (fun p => (p.1, Json.str p.2))

/-! ## JSON parsing (`JSON.parse`) -/

/-- Skip insignificant JSON whitespace (the four characters the JSON
grammar treats as such). -/
def skipWs : List Char → List Char
  | [] => []
  | c :: rest =>
      if ([' ', '\t', '\n', '\x0d'] : List Char).contains c then skipWs rest
      else c :: rest

/-- Decode one backslash escape inside a JSON string literal: the short
escapes plus the solidus (`\u` escapes are outside the modelled
fragment; no claim exercises them). -/
def unescape (c : Char) : Option Char :=
  if c == '/' then some '/'
  else (shortEscapes.find? (fun p => p.2 == c)).map Prod.fst

/-- Parse the body of a JSON string literal after its opening quote,
returning the decoded characters and the remaining input. -/
def parseStringBody : List Char → Option (List Char × List Char)
  | [] => none
  | '"' :: rest => some ([], rest)
  | '\\' :: rest =>
      match rest with
      | [] => none
      | e :: rest' =>
          match unescape e with
          | none => none
          | some c =>
              match parseStringBody rest' with
              | none => none
              | some (cs, r) => some (c :: cs, r)
  | c :: rest =>
      if c.val < 0x20 then none
      else
        match parseStringBody rest with
        | none => none
        | some (cs, r) => some (c :: cs, r)

/-- Digit-string value. -/
def digitsVal (ds : List Char) : Nat :=
  ds.foldl (fun acc c => acc * 10 + (c.toNat - '0'.toNat)) 0

/-- Parse a JSON integer numeral (strict grammar: optional minus, no
leading zeros, and no fraction or exponent, which the modelled fragment
excludes). -/
def parseNumber (cs : List Char) : Option (Int × List Char) :=
  let (neg, cs1) := match cs with
    | '-' :: rest => (true, rest)
    | _ => (false, cs)
  let ds := cs1.takeWhile Char.isDigit
  let rest := cs1.dropWhile Char.isDigit
  if ds.isEmpty then none
  else if ds.length > 1 && ds.headD '0' == '0' then none
  else
    match rest with
    | '.' :: _ => none
    | 'e' :: _ => none
    | 'E' :: _ => none
    | _ => some (if neg then -(digitsVal ds : Int) else (digitsVal ds : Int), rest)

mutual

/-- Fuel-based recursive-descent parser for one JSON value. -/
def parseVal : Nat → List Char → Option (Json × List Char)
  | 0, _ => none
  | fuel + 1, input =>
    match skipWs input with
    | [] => none
    | c :: rest =>
      if c == '"' then
        match parseStringBody rest with
        | none => none
        | some (cs, r) => some (.str ⟨cs⟩, r)
      else if c == '[' then
        match skipWs rest with
        | ']' :: r => some (.arr [], r)
        | r => match parseElems fuel r with
               | none => none
               | some (xs, r') => some (.arr xs, r')
      else if c == '\x7b' then
        match skipWs rest with
        | '\x7d' :: r => some (.obj [], r)
        | r => match parseMembers fuel r with
               | none => none
               | some (fs, r') => some (.obj (objSpread [] fs), r')
      else if c == 't' then
        match rest with
        | 'r' :: 'u' :: 'e' :: r => some (.bool true, r)
        | _ => none
      else if c == 'f' then
        match rest with
        | 'a' :: 'l' :: 's' :: 'e' :: r => some (.bool false, r)
        | _ => none
      else if c == 'n' then
        match rest with
        | 'u' :: 'l' :: 'l' :: r => some (.null, r)
        | _ => none
      else
        match parseNumber (c :: rest) with
        | none => none
        | some (n, r) => some (.num n, r)

/-- Parse the comma-separated elements of a non-empty array, consuming
the closing bracket. -/
def parseElems : Nat → List Char → Option (List Json × List Char)
  | 0, _ => none
  | fuel + 1, input =>
    match parseVal fuel input with
    | none => none
    | some (v, r) =>
      match skipWs r with
      | ',' :: r' =>
          match parseElems fuel r' with
          | none => none
          | some (vs, r'') => some (v :: vs, r'')
      | ']' :: r' => some ([v], r')
      | _ => none

/-- Parse the comma-separated members of a non-empty object, consuming
the closing brace. -/
def parseMembers : Nat → List Char → Option (List (String × Json) × List Char)
  | 0, _ => none
  | fuel + 1, input =>
    match skipWs input with
    | '"' :: r0 =>
      match parseStringBody r0 with
      | none => none
      | some (kcs, r1) =>
        match skipWs r1 with
        | ':' :: r2 =>
          match parseVal fuel r2 with
          | none => none
          | some (v, r3) =>
            match skipWs r3 with
            | ',' :: r4 =>
                match parseMembers fuel r4 with
                | none => none
                | some (fs, r5) => some ((⟨kcs⟩, v) :: fs, r5)
            | '\x7d' :: r4 => some ([(⟨kcs⟩, v)], r4)
            | _ => none
        | _ => none
    | _ => none

end

/-- Model of `JSON.parse`: parse one value and require only whitespace
to remain; `none` models a thrown `SyntaxError`. -/
def jsonParse (s : String) : Option Json :=
  match parseVal (2 * s.length + 4) s.data with
  | none => none
  | some (v, rest) => if (skipWs rest).isEmpty then some v else none

/-! ## HTTP and fetch model

A `fetch` call either resolves to a response (status, text body, ETag
header) or rejects; `none` models a rejected promise, i.e. a transport
failure that surfaces as a thrown exception unless caught. -/

/-- A resolved HTTP response. -/
structure HttpResponse where
  status : Nat
  body : String
  etag : Option String

/-- Model of `res.ok`: status in the 2xx range. -/
def respOk (r : HttpResponse) : Bool :=
  decide (200 ≤ r.status ∧ r.status < 300)

/-- Process-wide existence cache `HAS_4096_CACHE` (an insertion-ordered
`Map<string, boolean>`). -/
abbrev CacheMap := List (String × Bool)

/-- Model of `HAS_4096_CACHE.get(seriesId)`. -/
def cacheGet (c : CacheMap) (seriesId : String) : Option Bool :=
  olookup seriesId c

/-- Model of `HAS_4096_CACHE.set(seriesId, b)`. -/
def cacheSet (c : CacheMap) (seriesId : String) (b : Bool) : CacheMap :=
  objInsert c seriesId b

/-- The two kinds of GET the metadata read can issue, recorded in the
order the requests are made. -/
inductive ReqKind where
  | indexReq : ReqKind
  | keyGet : ReqKind
deriving DecidableEq, Repr

/-- Responses the remote service gives to the (at most) two GETs of one
metadata read: the index listing and the key-4096 value. -/
structure ReadEnv where
  indexFetch : Option HttpResponse
  keyFetch : Option HttpResponse

/-- A PUT request sent to `/series/<id>/metadata/4096`. -/
structure PutRequest where
  contentType : String
  ifMatch : Option String
  body : String

/-- Conditional-precondition header: `...(etag ? \x7b "If-Match": etag \x7d : \x7b\x7d)`
(JavaScript truthiness drops an empty token). -/
def ifMatchOf (etag : Option String) : Option String :=
  match etag with
  | some e => if e == "" then none else some e
  | none => none

/-! ## Two-stage parse (V2 `parseRaw`, part_000 lines 514-525; the same
algorithm appears inline in V1 lines 184-198 and V3 lines 1041-1054) -/

/-- Parse a raw stored text into the custom-tags value: parse once; if
the result is a string, parse it again; keep the final value when it is
truthy and of JavaScript `object` type, else the empty object; a parse
failure at either stage also yields the empty object. -/
def parseRaw (rawText : String) : Json :=
  match jsonParse rawText with
  | none => Json.obj []
  | some first =>
    match first with
    | Json.str s =>
      match jsonParse s with
      | none => Json.obj []
      | some second =>
          if jsTruthy second && jsTypeofObject second then second else Json.obj []
    | _ => if jsTruthy first && jsTypeofObject first then first else Json.obj []

/-! ## V1 client (part_000 lines 1-331) -/

/-- V1 `getSeriesCustomTags` (lines 155-199): check the metadata index
for key 4096, then fetch and parse the value; listing failures and
non-ok value responses fail closed to the empty object.  The `fetch`
calls and `indexRes.json()` are not wrapped in try/catch, so their
failures propagate. -/
def getSeriesCustomTagsV1 (env : ReadEnv) : Except Unit Json :=
  match env.indexFetch with
  | none => .error ()
  | some indexRes =>
    if ! respOk indexRes then .ok (Json.obj [])
    else
      match jsonParse indexRes.body with
      | none => .error ()
      | some indexJson =>
        let index := match indexJson with
          | .null => Json.obj []
          | x => x
        if ! jsHasOwn index "4096" then .ok (Json.obj [])
        else
          match env.keyFetch with
          | none => .error ()
          | some valueRes =>
            if ! respOk valueRes then .ok (Json.obj [])
            else if valueRes.body == "" then .ok (Json.obj [])
            else .ok (parseRaw valueRes.body)

/-- V1 `putSeriesCustomTags` (lines 205-219): serialise the given tags
and PUT the double-encoded text directly — no read and no merge.  The
patch passes through the dynamic object unchanged, so it is taken as a
JSON field list. -/
def putSeriesCustomTagsV1 (putFetch : Option HttpResponse)
    (tags : List (String × Json)) : PutRequest × Except Unit Unit :=
  let jsonText := Json.stringify (.obj tags)
  let req : PutRequest :=
    ⟨"application/json", none, Json.stringify (.str jsonText)⟩
  match putFetch with
  | none => (req, .error ())
  | some res => (req, if respOk res then .ok () else .error ())

/-! ## V2 client (part_000 lines 333-877) -/

/-- Model of `Number(s)` on the decimal integer strings the index-key
check can meet; other inputs give `none` (NaN), which compares unequal
to every number. -/
def jsToNumber (s : String) : Option Int :=
  let t := jsTrim s
  if t == "" then some 0
  else
    let (neg, ds) := match t.data with
      | '-' :: rest => (true, rest)
      | '+' :: rest => (false, rest)
      | l => (false, l)
    if ds.isEmpty then none
    else if ds.all Char.isDigit then
      some (if neg then -(digitsVal ds : Int) else (digitsVal ds : Int))
    else none

/-- The V2 index check (lines 559-562): does any listed key equal
`"4096"` literally, numerically, or case-insensitively? -/
def indexHas4096 (keys : List String) : Bool :=
  keys.any (fun k => k == "4096") ||
  keys.any (fun k => jsToNumber k == some 4096) ||
  keys.any (fun k => jsToLower k == "4096")

/-- Outcome of one V2 metadata read: the GETs issued in order, the
returned tags/ETag (or a thrown exception), and the updated cache. -/
structure ReadResult where
  trace : List ReqKind
  outcome : Except Unit (Json × Option String)
  cache : CacheMap

/-- V2 `getSeriesCustomTagsWithEtag` (lines 506-623).  A cached `true`
reads the key directly; otherwise the index is probed first (its errors
are swallowed) and, unless the index confirmed the key, a quiet probe
GET decides.  Key-fetch rejections are not caught and propagate. -/
def getSeriesCustomTagsWithEtagV2 (env : ReadEnv) (cache : CacheMap)
    (seriesId : String) : ReadResult :=
  if cacheGet cache seriesId == some true then
    match env.keyFetch with
    | none => ⟨[.keyGet], .error (), cache⟩
    | some res =>
      if respOk res then
        ⟨[.keyGet], .ok (parseRaw (jsTrim res.body), res.etag), cache⟩
      else if res.status == 404 then
        ⟨[.keyGet], .ok (Json.obj [], none), cacheSet cache seriesId false⟩
      else
        ⟨[.keyGet], .ok (Json.obj [], none), cache⟩
  else
    let cache1 :=
      match env.indexFetch with
      | none => cache
      | some idxRes =>
        if respOk idxRes then
          match jsonParse idxRes.body with
          | none => cache
          | some idxJson =>
            let idx := match idxJson with
              | .null => Json.obj []
              | x => x
            if indexHas4096 (jsKeys idx) then cacheSet cache seriesId true
            else cache
        else cache
    if cacheGet cache1 seriesId == some true then
      match env.keyFetch with
      | none => ⟨[.indexReq, .keyGet], .error (), cache1⟩
      | some res =>
        if respOk res then
          ⟨[.indexReq, .keyGet], .ok (parseRaw (jsTrim res.body), res.etag), cache1⟩
        else if res.status == 404 then
          ⟨[.indexReq, .keyGet], .ok (Json.obj [], none), cacheSet cache1 seriesId false⟩
        else
          ⟨[.indexReq, .keyGet], .ok (Json.obj [], none), cache1⟩
    else
      match env.keyFetch with
      | none => ⟨[.indexReq, .keyGet], .error (), cache1⟩
      | some res =>
        if respOk res then
          ⟨[.indexReq, .keyGet], .ok (parseRaw (jsTrim res.body), res.etag),
            cacheSet cache1 seriesId true⟩
        else if res.status == 404 then
          ⟨[.indexReq, .keyGet], .ok (Json.obj [], none), cacheSet cache1 seriesId false⟩
        else
          ⟨[.indexReq, .keyGet], .ok (Json.obj [], none), cache1⟩

/-- Responses of the remote service to the two possible PUT attempts of
one dual-mode write. -/
structure WriteEnv where
  attemptA : Option HttpResponse
  attemptB : Option HttpResponse

/-- Body of attempt A: plain JSON text. -/
def bodyPlain (bodyObject : List (String × Json)) : String :=
  Json.stringify (.obj bodyObject)

/-- Body of attempt B: the legacy double-encoded form. -/
def bodyLegacy (bodyObject : List (String × Json)) : String :=
  Json.stringify (.str (bodyPlain bodyObject))

/-- V2 `writeMetadata4096DualMode` (lines 642-689): PUT the plain JSON
text first; if the server answers non-ok, retry once with the legacy
double-encoded body and return that second response; an accepted first
attempt is returned immediately.  Fetch rejections propagate. -/
def writeMetadata4096DualMode (env : WriteEnv)
    (bodyObject : List (String × Json)) (etag : Option String) :
    List PutRequest × Except Unit HttpResponse :=
  let reqA : PutRequest :=
    ⟨"text/plain; charset=utf-8", ifMatchOf etag, bodyPlain bodyObject⟩
  match env.attemptA with
  | none => ([reqA], .error ())
  | some a =>
    if respOk a then ([reqA], .ok a)
    else
      let reqB : PutRequest :=
        ⟨"application/json", ifMatchOf etag, bodyLegacy bodyObject⟩
      match env.attemptB with
      | none => ([reqA, reqB], .error ())
      | some b => ([reqA, reqB], .ok b)

/-- Remote responses for one V2 write operation: one read phase plus the
dual-mode PUT phase. -/
structure ClientEnv where
  read : ReadEnv
  write : WriteEnv

/-- Outcome of a V2 write operation. -/
structure WriteOut where
  readTrace : List ReqKind
  puts : List PutRequest
  outcome : Except Unit Unit
  cache : CacheMap

/-- V2 `putSeriesCustomTags` (lines 696-720): read current and ETag,
merge `\x7b ...current, ...tags \x7d`, send via the dual-mode writer,
throw on a non-ok final response, and mark the cache `true` on
success. -/
def putSeriesCustomTagsV2 (env : ClientEnv) (cache : CacheMap)
    (seriesId : String) (tags : List (String × Json)) : WriteOut :=
  let r := getSeriesCustomTagsWithEtagV2 env.read cache seriesId
  match r.outcome with
  | .error _ => ⟨r.trace, [], .error (), r.cache⟩
  | .ok (current, etag) =>
    let merged := objSpread (jsOwnFields current) tags
    let (reqs, wres) := writeMetadata4096DualMode env.write merged etag
    match wres with
    | .error _ => ⟨r.trace, reqs, .error (), r.cache⟩
    | .ok res =>
      if respOk res then ⟨r.trace, reqs, .ok (), cacheSet r.cache seriesId true⟩
      else ⟨r.trace, reqs, .error (), r.cache⟩

/-- V2 `setSeriesCustomTag` (lines 723-747): one-entry merge
`\x7b ...current, [tagName]: value \x7d`, then the same write/throw/cache
steps as the put. -/
def setSeriesCustomTagV2 (env : ClientEnv) (cache : CacheMap)
    (seriesId tagName value : String) : WriteOut :=
  let r := getSeriesCustomTagsWithEtagV2 env.read cache seriesId
  match r.outcome with
  | .error _ => ⟨r.trace, [], .error (), r.cache⟩
  | .ok (current, etag) =>
    let merged := objSpread (jsOwnFields current) [(tagName, Json.str value)]
    let (reqs, wres) := writeMetadata4096DualMode env.write merged etag
    match wres with
    | .error _ => ⟨r.trace, reqs, .error (), r.cache⟩
    | .ok res =>
      if respOk res then ⟨r.trace, reqs, .ok (), cacheSet r.cache seriesId true⟩
      else ⟨r.trace, reqs, .error (), r.cache⟩

/-- V2 `deleteSeriesCustomTag` (lines 750-774): read, remove the key
locally (`delete current[tagName]`), write the remaining document with
the dual-mode writer directly, and leave the cache untouched on
success. -/
def deleteSeriesCustomTagV2 (env : ClientEnv) (cache : CacheMap)
    (seriesId tagName : String) : WriteOut :=
  let r := getSeriesCustomTagsWithEtagV2 env.read cache seriesId
  match r.outcome with
  | .error _ => ⟨r.trace, [], .error (), r.cache⟩
  | .ok (current, etag) =>
    let afterDelete := (jsOwnFields current).filter (fun p => ! (p.1 == tagName))
    let (reqs, wres) := writeMetadata4096DualMode env.write afterDelete etag
    match wres with
    | .error _ => ⟨r.trace, reqs, .error (), r.cache⟩
    | .ok res =>
      if respOk res then ⟨r.trace, reqs, .ok (), r.cache⟩
      else ⟨r.trace, reqs, .error (), r.cache⟩

/-! ## V3 client (part_000 lines 879-1204) -/

/-- V3 `getSeriesCustomTagsWithEtag` (lines 1021-1055): one direct GET
of the key; 404 and other non-ok responses fail closed; an ok response
is parsed with the two-stage parse and paired with its ETag.  A fetch
rejection propagates. -/
def getSeriesCustomTagsWithEtagV3 (keyFetch : Option HttpResponse) :
    Except Unit (Json × Option String) :=
  match keyFetch with
  | none => .error ()
  | some res =>
    if res.status == 404 then .ok (Json.obj [], none)
    else if ! respOk res then .ok (Json.obj [], none)
    else if res.body == "" then .ok (Json.obj [], res.etag)
    else .ok (parseRaw res.body, res.etag)

/-- Remote responses for one V3 `putSeriesCustomTags` call: its inner
read and its single PUT. -/
structure V3PutEnv where
  readFetch : Option HttpResponse
  putFetch : Option HttpResponse

/-- V3 `putSeriesCustomTags` (lines 1074-1097): read current and ETag,
merge `\x7b ...current, ...tags \x7d`, PUT the merged JSON text once
(plain encoding, If-Match when an ETag is present), throw on non-ok. -/
def putSeriesCustomTagsV3 (env : V3PutEnv) (tags : List (String × Json)) :
    Option PutRequest × Except Unit Unit :=
  match getSeriesCustomTagsWithEtagV3 env.readFetch with
  | .error _ => (none, .error ())
  | .ok (current, etag) =>
    let merged := objSpread (jsOwnFields current) tags
    let req : PutRequest :=
      ⟨"text/plain; charset=utf-8", ifMatchOf etag, Json.stringify (.obj merged)⟩
    match env.putFetch with
    | none => (some req, .error ())
    | some res => (some req, if respOk res then .ok () else .error ())

/-- Remote responses for one V3 `deleteSeriesCustomTag` call: the
delete's own read, then the read and PUT of the inner
`putSeriesCustomTags`. -/
structure V3DeleteEnv where
  deleteReadFetch : Option HttpResponse
  putReadFetch : Option HttpResponse
  putFetch : Option HttpResponse

/-- V3 `deleteSeriesCustomTag` (lines 1111-1118): read, remove the key
locally, then hand the remaining document to `putSeriesCustomTags` —
which performs its own read and merges the remaining document into it. -/
def deleteSeriesCustomTagV3 (env : V3DeleteEnv) (tagName : String) :
    Option PutRequest × Except Unit Unit :=
  match getSeriesCustomTagsWithEtagV3 env.deleteReadFetch with
  | .error _ => (none, .error ())
  | .ok (current, _) =>
    let afterDelete := (jsOwnFields current).filter (fun p => ! (p.1 == tagName))
    putSeriesCustomTagsV3 ⟨env.putReadFetch, env.putFetch⟩ afterDelete

/-! ## Tag aggregation (normalizeSeriesItem, V2 lines 779-855 and V3
lines 1123-1189; the merge and fallback steps are identical) -/

/-- Model of `m[k] ?? ""` on a `Record<string,string>`. -/
def jsGet (m : List (String × String)) (k : String) : String :=
  (olookup k m).getD ""

/-- The attribute merge of `normalizeSeriesItem` (V2 lines 820-825, V3
lines 1160-1165): spread patient, study, series and find-hint tags in
that order, later sources overriding earlier ones. -/
def mergeRequestedTags (patientTags studyTags seriesTags hint :
    List (String × String)) : List (String × String) :=
  objSpread (objSpread (objSpread patientTags studyTags) seriesTags) hint

/-- The display fallbacks applied after the merge (V2 lines 828-833):
copy `SeriesDate` into an empty `StudyDate` and `PatientID` into an
empty `PatientName`. -/
def applyDisplayFallbacks (t0 : List (String × String)) :
    List (String × String) :=
  let t1 :=
    if jsGet t0 "StudyDate" == "" && jsGet t0 "SeriesDate" != "" then
      objInsert t0 "StudyDate" (jsGet t0 "SeriesDate")
    else t0
  if jsGet t1 "PatientName" == "" && jsGet t1 "PatientID" != "" then
    objInsert t1 "PatientName" (jsGet t1 "PatientID")
  else t1

/-! ## Filter engine (`visibleRows`, App.tsx lines 39-120) -/

/-- Namespace selector of a tag filter (`KVScope` in FilterBar.tsx). -/
inductive KVScope where
  | dicom : KVScope
  | custom : KVScope
deriving DecidableEq, Repr

/-- Match mode of a tag filter (`KVMode` in FilterBar.tsx). -/
inductive KVMode where
  | contains : KVMode
  | equals : KVMode
  | startsWith : KVMode
  | endsWith : KVMode
  | dateRange : KVMode
deriving DecidableEq, Repr

/-- One tag filter (`KVPair` in FilterBar.tsx; the source's optional
`from`/`to` fields are named `fromDate`/`toDate` here because `from` is
reserved in Lean). -/
structure KVPair where
  key : String
  value : Option String
  scope : KVScope
  mode : KVMode
  fromDate : Option String
  toDate : Option String
deriving DecidableEq, Repr

/-- Structured filter state (`AdvancedFilterState`). -/
structure AdvancedFilterState where
  kvPairs : List KVPair
deriving DecidableEq, Repr

/-- Normalized table row (`SeriesRowData`). -/
structure SeriesRowData where
  id : String
  slices : Int
  requestedTags : List (String × String)
  customTags : List (String × String)
deriving DecidableEq, Repr

/-- Whether a tag filter is usable (App.tsx lines 41-48): a dateRange
filter needs a key or a bound, any other mode needs a key or a value. -/
def kvUsable (kv : KVPair) : Bool :=
  let lhs := jsTrim kv.key
  let rhs := jsTrim (kv.value.getD "")
  let hasDateBounds :=
    jsTrim (kv.fromDate.getD "") != "" || jsTrim (kv.toDate.getD "") != ""
  if kv.mode == .dateRange then lhs != "" || hasDateBounds
  else lhs != "" || rhs != ""

/-- Whether a tag filter is inert and skipped inside the row loop
(App.tsx lines 63-68). -/
def kvInert (kv : KVPair) : Bool :=
  let lhs := jsToLower (jsTrim kv.key)
  let rhs := jsToLower (jsTrim (kv.value.getD ""))
  let hasDateBounds :=
    jsTrim (kv.fromDate.getD "") != "" || jsTrim (kv.toDate.getD "") != ""
  if kv.mode == .dateRange then lhs == "" && ! hasDateBounds
  else lhs == "" && rhs == ""

/-- Whether a non-inert tag filter accepts a row (App.tsx lines 56-98):
restrict to the keys of the selected namespace whose lowercased name
includes the key filter; fail when none match; then require some
matching key's value to satisfy the mode (8-digit token within the
bounds for dateRange, case-insensitive string comparison otherwise,
with an empty value under the string modes meaning "non-empty value
exists"). -/
def kvAccepts (kv : KVPair) (requested custom : List (String × String)) : Bool :=
  let src := if kv.scope == .custom then custom else requested
  let lhs := jsToLower (jsTrim kv.key)
  let rhs := jsToLower (jsTrim (kv.value.getD ""))
  let keys := src.map Prod.fst
  let matchingKeys :=
    if lhs != "" then keys.filter (fun k => jsIncludes (jsToLower k) lhs)
    else keys
  if matchingKeys.isEmpty then false
  else if kv.mode == .dateRange then
    let lo := jsTrim (kv.fromDate.getD "")
    let hi := jsTrim (kv.toDate.getD "")
    matchingKeys.any (fun mk =>
      let v := jsTrim (jsGet src mk)
      if ! (v.length == 8 && v.data.all Char.isDigit) then false
      else if lo != "" && jsStrLt v lo then false
      else if hi != "" && jsStrLt hi v then false
      else true)
  else
    matchingKeys.any (fun mk =>
      let val := jsToLower (jsGet src mk)
      if rhs == "" then val != ""
      else
        match kv.mode with
        | .equals => val == rhs
        | .startsWith => jsStartsWith val rhs
        | .endsWith => jsEndsWith val rhs
        | _ => jsIncludes val rhs)

/-- The string-valued fields scanned by the free-text query (App.tsx
lines 103-114): seven prioritized attributes when present, the
stringified slice count, then every attribute and custom-tag value. -/
def freeTextFields (r : SeriesRowData) : List String :=
  ([olookup "PatientName" r.requestedTags,
    olookup "SeriesDescription" r.requestedTags,
    olookup "Modality" r.requestedTags,
    olookup "BodyPartExamined" r.requestedTags,
    olookup "SeriesDate" r.requestedTags,
    olookup "StudyInstanceUID" r.requestedTags,
    olookup "SeriesInstanceUID" r.requestedTags].filterMap id)
  ++ [toString r.slices]
  ++ r.requestedTags.map Prod.snd
  ++ r.customTags.map Prod.snd

/-- The per-row filter body (App.tsx lines 52-117): every non-inert tag
filter must accept the row, and a non-empty free-text query must occur
in some scanned field (case-insensitively). -/
def rowPasses (kvPairs : List KVPair) (q : String) (r : SeriesRowData) : Bool :=
  kvPairs.all (fun kv => kvInert kv || kvAccepts kv r.requestedTags r.customTags)
  && (q == "" || (freeTextFields r).any (fun v => jsIncludes (jsToLower v) q))

/-- The filter engine `visibleRows` (App.tsx lines 39-120): with an
empty trimmed query and no usable tag filter the row set is returned
unchanged, otherwise it is filtered by `rowPasses`. -/
def visibleRows (series : List SeriesRowData) (query : String)
    (adv : AdvancedFilterState) : List SeriesRowData :=
  let q := jsToLower (jsTrim query)
  let hasUsableKv := adv.kvPairs.any kvUsable
  if q == "" && ! hasUsableKv then series
  else series.filter (rowPasses adv.kvPairs q)

/-! ## Derived notions and concrete fixtures used by the verification -/

/-- The dual-mode writer ends with an accepted response exactly when the
plain attempt is accepted, or the plain attempt is rejected with a
response and the legacy attempt is accepted. -/
def acceptedAttempt (w : WriteEnv) : Prop :=
  (∃ a, w.attemptA = some a ∧ respOk a = true) ∨
  (∃ a b, w.attemptA = some a ∧ respOk a = false ∧ w.attemptB = some b ∧
    respOk b = true)

/-- A bare accepted response. -/
def ok200 : HttpResponse := ⟨200, "", none⟩

/-- A bare not-found response. -/
def notFound404 : HttpResponse := ⟨404, "", none⟩

/-- An index listing with no keys. -/
def emptyIndexResp : HttpResponse := ⟨200, "\x7b\x7d", none⟩

/-- A stored document `\x7b"a":"1"\x7d` served with status 200. -/
def docA1Resp : HttpResponse := ⟨200, "\x7b\"a\":\"1\"\x7d", none⟩

/-- The serialised document `\x7b"a":"1","b":"2"\x7d`. -/
def storedAB : String :=
  Json.stringify (Json.obj [("a", Json.str "1"), ("b", Json.str "2")])

/-- The stored document `\x7b"a":"1","b":"2"\x7d` served with status 200. -/
def respAB : HttpResponse := ⟨200, storedAB, none⟩

/-- A stable server for one V3 delete: both reads return the same
document and the PUT is accepted. -/
def v3DeleteBugEnv : V3DeleteEnv := ⟨some respAB, some respAB, some ok200⟩

/-- Read environment after a confirmed miss: the index lists nothing and
the key GET answers 404. -/
def notFoundProbeEnv : ReadEnv := ⟨some emptyIndexResp, some notFound404⟩

/-- Client environment whose read (under a cached `true`) returns the
document `\x7b"a":"1"\x7d` and whose plain write attempt is accepted. -/
def mergeWriteEnv : ClientEnv := ⟨⟨none, some docA1Resp⟩, ⟨some ok200, none⟩⟩

/-- The double-encoded form of the document `\x7bk:v\x7d`, as a legacy
client would have stored it. -/
def doubleEncodedKV : String :=
  Json.stringify (Json.str (Json.stringify (Json.obj [("k", Json.str "v")])))

/-- The date-range predicate of the specification's example. -/
def dateKv : KVPair :=
  ⟨"SeriesDate", none, .dicom, .dateRange, some "20240101", some "20240131"⟩

/-- A row whose series date falls inside the example's range. -/
def dateRow : SeriesRowData := ⟨"s1", 1, [("SeriesDate", "20240115")], []⟩

/-- A predicate whose key filter matches no key of `dateRow`. -/
def missKv : KVPair := ⟨"Nonexistent", some "x", .dicom, .contains, none, none⟩

/-! ## Helper lemmas about the object model -/

/-- First-some choice on options, used to state lookup precedence. -/
def optOr {α : Type} : Option α → Option α → Option α
  | some v, _ => some v
  | none, y => y

theorem olookup_map_update {α : Type} (o : List (String × α)) (k : String)
    (v : α) (k' : String) :
    olookup k' (o.map (fun p => if p.1 = k then (k, v) else p)) =
      if k' = k then (olookup k o).map (fun _ => v) else olookup k' o := by
  induction o with
  | nil => by_cases h : k' = k <;> simp [olookup, h]
  | cons p o ih =>
    obtain ⟨a, b⟩ := p
    by_cases hak : a = k
    · subst hak
      by_cases h : k' = a
      · subst h; simp [olookup, ih]
      · have h1 : (k' == a) = false := beq_eq_false_iff_ne.mpr h
        simp [olookup, h1, ih, h]
    · have h1 : (a == k) = false := beq_eq_false_iff_ne.mpr hak
      by_cases h : k' = a
      · subst h
        have h2 : (k' == k) = false := beq_eq_false_iff_ne.mpr hak
        simp [olookup, hak, h2]
      · have h2 : (k' == a) = false := beq_eq_false_iff_ne.mpr h
        by_cases h3 : k' = k
        · subst h3
          have h4 : (k' == a) = false := h2
          simp [olookup, hak, h2, ih]
        · simp [olookup, hak, h2, ih, h3]

theorem olookup_isSome_iff_any {α : Type} (o : List (String × α)) (k : String) :
    (olookup k o).isSome = o.any (fun p => p.1 == k) := by
  induction o with
  | nil => rfl
  | cons p o ih =>
    obtain ⟨a, b⟩ := p
    by_cases h : k = a
    · subst h; simp [olookup]
    · have h1 : (k == a) = false := beq_eq_false_iff_ne.mpr h
      have h2 : (a == k) = false := beq_eq_false_iff_ne.mpr (fun e => h e.symm)
      simp [olookup, h1, h2, ih]

theorem olookup_append_one {α : Type} (o : List (String × α)) (k : String)
    (v : α) (k' : String) :
    olookup k' (o ++ [(k, v)]) =
      optOr (olookup k' o) (if k' = k then some v else none) := by
  induction o with
  | nil =>
    by_cases h : k' = k
    · subst h; simp [olookup, optOr]
    · have h1 : (k' == k) = false := by simp [h]
      simp [olookup, h1, optOr, h]
  | cons p o ih =>
    obtain ⟨a, b⟩ := p
    by_cases hk'a : k' = a
    · subst hk'a; simp [olookup, optOr]
    · have h1 : (k' == a) = false := by simp [hk'a]
      simp [olookup, h1, ih]

theorem olookup_eq_none_of_any_false {α : Type} (o : List (String × α))
    (k : String) (h : o.any (fun p => p.1 == k) = false) :
    olookup k o = none := by
  induction o with
  | nil => rfl
  | cons p o ih =>
    obtain ⟨a, b⟩ := p
    simp only [List.any_cons, Bool.or_eq_false_iff] at h
    have h2 : (k == a) = false := by
      have h1 := h.1
      simp only [beq_eq_false_iff_ne] at h1 ⊢
      exact fun e => h1 e.symm
    simp [olookup, h2, ih h.2]

/-- Characterisation of lookup after a property assignment. -/
theorem olookup_objInsert {α : Type} (o : List (String × α)) (k : String)
    (v : α) (k' : String) :
    olookup k' (objInsert o k v) = if k' = k then some v else olookup k' o := by
  have hfun : (fun p : String × α => if p.1 == k then (k, v) else p)
      = (fun p => if p.1 = k then (k, v) else p) := by
    funext p
    by_cases hp : p.1 = k <;> simp [hp]
  unfold objInsert
  by_cases hany : o.any (fun p => p.1 == k) = true
  · rw [if_pos hany, hfun, olookup_map_update]
    by_cases h : k' = k
    · subst h
      have hs : (olookup k' o).isSome = true := by
        rw [olookup_isSome_iff_any]; exact hany
      cases hl : olookup k' o with
      | none => rw [hl] at hs; simp at hs
      | some x => simp [hl]
    · simp [h]
  · have hf : o.any (fun p => p.1 == k) = false := by
      revert hany; cases o.any (fun p => p.1 == k) <;> simp
    rw [if_neg (by rw [hf]; simp), olookup_append_one]
    by_cases h : k' = k
    · subst h; simp [olookup_eq_none_of_any_false o k' hf, optOr]
    · simp only [h, if_false]
      cases hl : olookup k' o <;> simp [optOr]

/-- Lookup after an object spread: entries of `b` win, provided `b` has
no duplicate keys (the case of every `Record` literal and of every
object `JSON.parse` can produce). -/
theorem olookup_objSpread {α : Type} (a b : List (String × α)) (k : String)
    (hb : (b.map Prod.fst).Nodup) :
    olookup k (objSpread a b) = optOr (olookup k b) (olookup k a) := by
  induction b generalizing a with
  | nil => simp [objSpread, optOr, olookup]
  | cons p b ih =>
    obtain ⟨k0, v0⟩ := p
    simp only [List.map_cons, List.nodup_cons] at hb
    have step : objSpread a ((k0, v0) :: b) = objSpread (objInsert a k0 v0) b := rfl
    rw [step, ih (objInsert a k0 v0) hb.2]
    by_cases h : k = k0
    · subst h
      have hbnone : olookup k b = none := by
        apply olookup_eq_none_of_any_false
        by_contra hc
        have hc' : b.any (fun p => p.1 == k) = true := by
          revert hc; cases b.any (fun p => p.1 == k) <;> simp
        rcases List.any_eq_true.mp hc' with ⟨q, hq, hqk⟩
        exact hb.1 (beq_iff_eq.mp hqk ▸ List.mem_map_of_mem Prod.fst hq)
      simp [hbnone, olookup_objInsert, olookup, optOr]
    · have h1 : (k == k0) = false := by simp [h]
      simp [olookup, h1, olookup_objInsert, h]

theorem olookup_strEntries (m : List (String × String)) (k : String) :
    olookup k (strEntries m) = (olookup k m).map Json.str := by
  induction m with
  | nil => rfl
  | cons p m ih =>
    obtain ⟨a, b⟩ := p
    by_cases h : k = a
    · subst h; simp [strEntries, olookup]
    · have h1 : (k == a) = false := by simp [h]
      simp only [strEntries, List.map_cons, olookup, h1, Bool.false_eq_true,
        if_false] at ih ⊢
      exact ih

theorem strEntries_objInsert (m : List (String × String)) (k v : String) :
    objInsert (strEntries m) k (Json.str v) = strEntries (objInsert m k v) := by
  have hany : (strEntries m).any (fun p => p.1 == k) = m.any (fun p => p.1 == k) := by
    induction m with
    | nil => rfl
    | cons p m ih =>
      obtain ⟨a, b⟩ := p
      simp only [strEntries, List.map_cons, List.any_cons] at ih ⊢
      rw [ih]
  unfold objInsert
  rw [hany]
  by_cases h : m.any (fun p => p.1 == k) = true
  · simp only [h, if_true, strEntries, List.map_map]
    apply List.map_congr_left
    intro p _
    obtain ⟨a, b⟩ := p
    by_cases hak : a = k
    · subst hak; simp
    · simp [hak]
  · have hf : m.any (fun p => p.1 == k) = false := by
      revert h; cases m.any (fun p => p.1 == k) <;> simp
    simp [hf, strEntries]

theorem strEntries_objSpread (a b : List (String × String)) :
    objSpread (strEntries a) (strEntries b) = strEntries (objSpread a b) := by
  induction b generalizing a with
  | nil => rfl
  | cons p b ih =>
    obtain ⟨k, v⟩ := p
    have step1 : objSpread (strEntries a) (strEntries ((k, v) :: b))
        = objSpread (objInsert (strEntries a) k (Json.str v)) (strEntries b) := rfl
    have step2 : objSpread a ((k, v) :: b) = objSpread (objInsert a k v) b := rfl
    rw [step1, strEntries_objInsert, ih, step2]

theorem cacheGet_cacheSet (c : CacheMap) (sid : String) (b : Bool) :
    cacheGet (cacheSet c sid b) sid = some b := by
  unfold cacheGet cacheSet
  simp [olookup_objInsert]

/-! ## Helper lemmas about lexicographic string order -/

theorem charEq_of_toNat_eq {c d : Char} (h : c.toNat = d.toNat) : c = d :=
  Char.ofNat_toNat c ▸ Char.ofNat_toNat d ▸ congrArg Char.ofNat h

theorem lexLt_irrefl (a : List Char) : lexLt a a = false := by
  induction a with
  | nil => rfl
  | cons c a ih => simp [lexLt, ih]

theorem lexLt_asymm (a b : List Char) (h : lexLt a b = true) :
    lexLt b a = false := by
  induction a generalizing b with
  | nil =>
    cases b with
    | nil => simp [lexLt] at h
    | cons c b => simp [lexLt]
  | cons c a ih =>
    cases b with
    | nil => simp [lexLt] at h
    | cons d b =>
      simp only [lexLt, Bool.or_eq_true, Bool.and_eq_true, decide_eq_true_eq,
        beq_iff_eq] at h
      rcases h with h | ⟨hcd, h⟩
      · have h1 : ¬ d.toNat < c.toNat := by omega
        have h2 : (d == c) = false :=
          beq_eq_false_iff_ne.mpr (fun e => by subst e; omega)
        simp [lexLt, h1, h2]
      · subst hcd
        simp [lexLt, Nat.lt_irrefl, ih b h]

theorem lexLt_trichotomy (a b : List Char) :
    lexLt a b = true ∨ lexLt b a = true ∨ a = b := by
  induction a generalizing b with
  | nil =>
    cases b with
    | nil => right; right; rfl
    | cons c b => left; simp [lexLt]
  | cons c a ih =>
    cases b with
    | nil => right; left; simp [lexLt]
    | cons d b =>
      rcases Nat.lt_trichotomy c.toNat d.toNat with h | h | h
      · left; simp [lexLt, h]
      · have e : c = d := charEq_of_toNat_eq h
        subst e
        rcases ih b with h1 | h1 | h1
        · left; simp [lexLt, h1]
        · right; left; simp [lexLt, h1]
        · right; right; rw [h1]
      · right; left; simp [lexLt, h]

theorem jsStrLt_false_iff (v f : String) :
    jsStrLt v f = false ↔ jsStrLe f v = true := by
  constructor
  · intro h
    rcases lexLt_trichotomy v.data f.data with h1 | h1 | h1
    · rw [jsStrLt, h1] at h; exact absurd h (by simp)
    · simp [jsStrLe, jsStrLt, h1]
    · have e : v = f := by
        cases v; cases f; exact congrArg String.mk h1
      subst e
      simp [jsStrLe]
  · intro h
    simp only [jsStrLe, Bool.or_eq_true, beq_iff_eq] at h
    rcases h with h | h
    · exact lexLt_asymm f.data v.data h
    · subst h; exact lexLt_irrefl f.data

/-! ## Helper lemmas about the filter engine -/

theorem jsToLower_beq_empty (s : String) : (jsToLower s == "") = (s == "") := by
  cases s with
  | mk l =>
    cases l with
    | nil => rfl
    | cons c rest =>
      have h1 : (jsToLower ⟨c :: rest⟩ == "") = false := by
        apply beq_eq_false_iff_ne.mpr
        intro h
        have h2 := congrArg String.data h
        simp [jsToLower] at h2
      have h3 : ((⟨c :: rest⟩ : String) == "") = false := by
        apply beq_eq_false_iff_ne.mpr
        intro h
        have h4 := congrArg String.data h
        simp at h4
      rw [h1, h3]

/-- The pre-loop usability test and the in-loop inertness test are
complementary. -/
theorem kvUsable_eq_not_inert (kv : KVPair) : kvUsable kv = ! kvInert kv := by
  unfold kvUsable kvInert
  by_cases hm : kv.mode = KVMode.dateRange
  · have hm' : (kv.mode == KVMode.dateRange) = true := beq_iff_eq.mpr hm
    simp only [hm', if_true, jsToLower_beq_empty]
    cases hk : (jsTrim kv.key == "") <;>
      cases hb : (jsTrim (kv.fromDate.getD "") != "" ||
        jsTrim (kv.toDate.getD "") != "") <;> simp_all
  · have hm' : (kv.mode == KVMode.dateRange) = false := beq_eq_false_iff_ne.mpr hm
    simp only [hm', Bool.false_eq_true, if_false, jsToLower_beq_empty]
    cases hk : (jsTrim kv.key == "") <;>
      cases hv : (jsTrim (kv.value.getD "") == "") <;> simp_all

/-! ## Helper lemmas about the metadata client -/

theorem writeDual_ifMatch (env : WriteEnv) (bodyObject : List (String × Json))
    (etag : Option String) (req : PutRequest)
    (hmem : req ∈ (writeMetadata4096DualMode env bodyObject etag).1) :
    req.ifMatch = ifMatchOf etag := by
  obtain ⟨attA, attB⟩ := env
  unfold writeMetadata4096DualMode at hmem
  cases attA with
  | none => simp at hmem; subst hmem; rfl
  | some a =>
    by_cases hok : respOk a = true
    · simp [hok] at hmem; subst hmem; rfl
    · have hok' : respOk a = false := by revert hok; cases respOk a <;> simp
      cases attB with
      | none =>
        simp [hok'] at hmem
        rcases hmem with h | h <;> subst h <;> rfl
      | some b =>
        simp [hok'] at hmem
        rcases hmem with h | h <;> subst h <;> rfl

theorem writeDual_ok_iff (env : WriteEnv) (bodyObject : List (String × Json))
    (etag : Option String) :
    (∃ r, (writeMetadata4096DualMode env bodyObject etag).2 = .ok r ∧
        respOk r = true) ↔ acceptedAttempt env := by
  obtain ⟨attA, attB⟩ := env
  unfold writeMetadata4096DualMode acceptedAttempt
  cases attA with
  | none => simp
  | some a =>
    by_cases hok : respOk a = true
    · simp [hok]
    · have hok' : respOk a = false := by revert hok; cases respOk a <;> simp
      cases attB with
      | none => simp [hok']
      | some b =>
        by_cases hbk : respOk b = true <;> simp [hok', hbk]

theorem readV2_ok_of_keyFetch (idx : Option HttpResponse) (resp : HttpResponse)
    (cache : CacheMap) (sid : String) :
    ∃ v, (getSeriesCustomTagsWithEtagV2 ⟨idx, some resp⟩ cache sid).outcome = .ok v := by
  unfold getSeriesCustomTagsWithEtagV2
  dsimp only
  repeat' split
  all_goals exact ⟨_, rfl⟩

theorem readV2_fail_closed (idx : Option HttpResponse) (resp : HttpResponse)
    (cache : CacheMap) (sid : String) (hnok : respOk resp = false) :
    (getSeriesCustomTagsWithEtagV2 ⟨idx, some resp⟩ cache sid).outcome
      = .ok (Json.obj [], none) := by
  unfold getSeriesCustomTagsWithEtagV2
  dsimp only
  split
  · simp only [hnok, Bool.false_eq_true, if_false]
    split <;> rfl
  · split
    · simp only [hnok, Bool.false_eq_true, if_false]
      split <;> rfl
    · simp only [hnok, Bool.false_eq_true, if_false]
      split <;> rfl

theorem readV2_trace_cached_true (env : ReadEnv) (cache : CacheMap)
    (sid : String) (h : cacheGet cache sid = some true) :
    (getSeriesCustomTagsWithEtagV2 env cache sid).trace = [ReqKind.keyGet] := by
  obtain ⟨idx, kf⟩ := env
  unfold getSeriesCustomTagsWithEtagV2
  rw [h]
  simp only [beq_self_eq_true, if_true]
  cases kf with
  | none => rfl
  | some res =>
    dsimp only
    split
    · rfl
    · split <;> rfl

theorem readV2_trace_not_cached_true (env : ReadEnv) (cache : CacheMap)
    (sid : String) (h : cacheGet cache sid ≠ some true) :
    (getSeriesCustomTagsWithEtagV2 env cache sid).trace =
      [ReqKind.indexReq, ReqKind.keyGet] := by
  obtain ⟨idx, kf⟩ := env
  unfold getSeriesCustomTagsWithEtagV2
  have hc : (cacheGet cache sid == some true) = false := beq_eq_false_iff_ne.mpr h
  rw [hc]
  simp only [Bool.false_eq_true, if_false]
  cases kf with
  | none =>
    split
    · rfl
    · rfl
  | some res =>
    split
    · dsimp only
      split
      · rfl
      · split <;> rfl
    · dsimp only
      split
      · rfl
      · split <;> rfl

theorem writeDual_head (env : WriteEnv) (bodyObject : List (String × Json))
    (etag : Option String) :
    (writeMetadata4096DualMode env bodyObject etag).1.head? =
      some ⟨"text/plain; charset=utf-8", ifMatchOf etag, bodyPlain bodyObject⟩ := by
  obtain ⟨attA, attB⟩ := env
  unfold writeMetadata4096DualMode
  dsimp only
  cases attA with
  | none => rfl
  | some a =>
    by_cases hok : respOk a = true
    · simp [hok]
    · have hok' : respOk a = false := by revert hok; cases respOk a <;> simp
      simp only [hok', Bool.false_eq_true, if_false]
      cases attB <;> rfl

theorem writeDual_bodies (env : WriteEnv) (bodyObject : List (String × Json))
    (etag : Option String) (req : PutRequest)
    (hmem : req ∈ (writeMetadata4096DualMode env bodyObject etag).1) :
    req.body = bodyPlain bodyObject ∨ req.body = bodyLegacy bodyObject := by
  obtain ⟨attA, attB⟩ := env
  unfold writeMetadata4096DualMode at hmem
  dsimp only at hmem
  cases attA with
  | none => simp at hmem; subst hmem; left; rfl
  | some a =>
    by_cases hok : respOk a = true
    · simp [hok] at hmem; subst hmem; left; rfl
    · have hok' : respOk a = false := by revert hok; cases respOk a <;> simp
      cases attB with
      | none =>
        simp [hok'] at hmem
        rcases hmem with h | h <;> subst h
        · left; rfl
        · right; rfl
      | some b =>
        simp [hok'] at hmem
        rcases hmem with h | h <;> subst h
        · left; rfl
        · right; rfl

theorem putV2_puts_eq (env : ClientEnv) (cache : CacheMap) (sid : String)
    (tags : List (String × Json)) (current : Json) (etag : Option String)
    (hread : (getSeriesCustomTagsWithEtagV2 env.read cache sid).outcome
      = .ok (current, etag)) :
    (putSeriesCustomTagsV2 env cache sid tags).puts =
      (writeMetadata4096DualMode env.write
        (objSpread (jsOwnFields current) tags) etag).1 := by
  unfold putSeriesCustomTagsV2
  dsimp only
  rw [hread]
  dsimp only
  rcases hw : writeMetadata4096DualMode env.write
    (objSpread (jsOwnFields current) tags) etag with ⟨reqs, wres⟩
  dsimp only
  cases wres with
  | error e => rfl
  | ok res => dsimp only; split <;> rfl

/-- Boolean reshaping of the dateRange value check of `kvAccepts`. -/
theorem dateCheck_iff (v lo hi : String) :
    (if ! (v.length == 8 && v.data.all Char.isDigit) then false
     else if lo != "" && jsStrLt v lo then false
     else if hi != "" && jsStrLt hi v then false else true) = true
    ↔ (v.length = 8 ∧ v.data.all Char.isDigit = true ∧
       (lo = "" ∨ jsStrLe lo v = true) ∧ (hi = "" ∨ jsStrLe v hi = true)) := by
  by_cases h8 : (v.length == 8 && v.data.all Char.isDigit) = true
  · have h8' : (! (v.length == 8 && v.data.all Char.isDigit)) = false := by
      rw [h8]; rfl
    rw [h8']
    simp only [Bool.false_eq_true, if_false]
    rw [Bool.and_eq_true] at h8
    obtain ⟨hlen, hdig⟩ := h8
    by_cases hlo : (lo != "" && jsStrLt v lo) = true
    · simp only [hlo, if_true]
      constructor
      · intro h; exact absurd h (by simp)
      · rintro ⟨-, -, hl, -⟩
        rw [Bool.and_eq_true] at hlo
        obtain ⟨hne, hlt⟩ := hlo
        rcases hl with hl | hl
        · rw [hl] at hne; simp at hne
        · rw [(jsStrLt_false_iff v lo).mpr hl] at hlt; simp at hlt
    · have hlo' : (lo != "" && jsStrLt v lo) = false := by
        revert hlo; cases (lo != "" && jsStrLt v lo) <;> simp
      rw [hlo']
      simp only [Bool.false_eq_true, if_false]
      by_cases hhi : (hi != "" && jsStrLt hi v) = true
      · simp only [hhi, if_true]
        constructor
        · intro h; exact absurd h (by simp)
        · rintro ⟨-, -, -, hh⟩
          rw [Bool.and_eq_true] at hhi
          obtain ⟨hne, hlt⟩ := hhi
          rcases hh with hh | hh
          · rw [hh] at hne; simp at hne
          · rw [(jsStrLt_false_iff hi v).mpr hh] at hlt; simp at hlt
      · have hhi' : (hi != "" && jsStrLt hi v) = false := by
          revert hhi; cases (hi != "" && jsStrLt hi v) <;> simp
        rw [hhi']
        simp only [Bool.false_eq_true, if_false, true_iff]
        refine ⟨beq_iff_eq.mp hlen, hdig, ?_, ?_⟩
        · rw [Bool.and_eq_false_iff] at hlo'
          rcases hlo' with h | h
          · left
            revert h; cases he : (lo == "")
            · simp [bne]
            · simp [bne, beq_iff_eq.mp he]
          · right; exact (jsStrLt_false_iff v lo).mp h
        · rw [Bool.and_eq_false_iff] at hhi'
          rcases hhi' with h | h
          · left
            revert h; cases he : (hi == "")
            · simp [bne]
            · simp [bne, beq_iff_eq.mp he]
          · right; exact (jsStrLt_false_iff hi v).mp h
  · have h8' : (! (v.length == 8 && v.data.all Char.isDigit)) = true := by
      revert h8; cases (v.length == 8 && v.data.all Char.isDigit) <;> simp
    rw [h8']
    simp only [if_true]
    constructor
    · intro h; exact absurd h (by simp)
    · rintro ⟨hlen, hdig, -, -⟩
      exact absurd (by rw [Bool.and_eq_true]; exact ⟨beq_iff_eq.mpr hlen, hdig⟩) h8

/-- Dropping the redundant emptiness guard in front of a Boolean `any`. -/
theorem if_isEmpty_any {α : Type} (l : List α) (f : α → Bool) :
    (if l.isEmpty then false else l.any f) = l.any f := by
  cases l <;> rfl

/-! ## Claim theorems -/

/-- C7: for every series, the aggregated attribute map is the object
spread of the patient, study, series and hint attribute maps in that
order, so on every key collision the later source wins — the hint
overrides series, study and patient; series overrides study and patient;
study overrides patient. -/
theorem mergeRequestedTags_precedence
    (patientTags studyTags seriesTags hint : List (String × String)) (k : String)
    (hst : (studyTags.map Prod.fst).Nodup)
    (hse : (seriesTags.map Prod.fst).Nodup)
    (hh : (hint.map Prod.fst).Nodup) :
    olookup k (mergeRequestedTags patientTags studyTags seriesTags hint) =
      optOr (olookup k hint) (optOr (olookup k seriesTags)
        (optOr (olookup k studyTags) (olookup k patientTags))) := by
  unfold mergeRequestedTags
  rw [olookup_objSpread _ _ _ hh, olookup_objSpread _ _ _ hse,
    olookup_objSpread _ _ _ hst]

/-- Witness for C7, the specification's own example: patient
`PatientID=X` and study `PatientID=Y` merge to `Y`. -/
theorem mergeRequestedTags_precedence_witness :
    olookup "PatientID"
      (mergeRequestedTags [("PatientID", "X")] [("PatientID", "Y")] [] [])
      = some "Y" := by
  rw [mergeRequestedTags_precedence [("PatientID", "X")] [("PatientID", "Y")] [] []
    "PatientID" (by decide) (by decide) (by decide)]
  rfl

/-- C10: the filter engine returns an order-preserving subsequence of
its input row set (so rows are never duplicated, reordered or invented),
and when the trimmed query is empty and every predicate is inert it
returns the input unchanged. -/
theorem visibleRows_sublist_and_identity
    (series : List SeriesRowData) (query : String) (adv : AdvancedFilterState) :
    List.Sublist (visibleRows series query adv) series
    ∧ (jsTrim query = "" → (∀ kv ∈ adv.kvPairs, kvInert kv = true) →
        visibleRows series query adv = series) := by
  constructor
  · unfold visibleRows
    dsimp only
    split
    · exact List.Sublist.refl _
    · exact List.filter_sublist _
  · intro hq hinert
    have hq' : (jsToLower (jsTrim query) == "") = true := by
      rw [jsToLower_beq_empty, hq]; decide
    have husable : adv.kvPairs.any kvUsable = false := by
      rw [List.any_eq_false]
      intro kv hkv
      rw [kvUsable_eq_not_inert, hinert kv hkv]
      simp
    unfold visibleRows
    dsimp only
    rw [hq', husable]
    rfl

/-- Witness for C10: an empty query and a single inert predicate leave
the row set untouched. -/
theorem visibleRows_sublist_and_identity_witness :
    visibleRows [dateRow] ""
      ⟨[⟨"", some "", KVScope.dicom, KVMode.contains, none, none⟩]⟩ = [dateRow] :=
  (visibleRows_sublist_and_identity [dateRow] ""
    ⟨[⟨"", some "", KVScope.dicom, KVMode.contains, none, none⟩]⟩).2
    (by decide) (by decide)

/-- C8: a non-inert dateRange predicate is satisfied on a row exactly
when some key of the selected namespace passes the (case-insensitive,
substring) key filter and holds a trimmed 8-digit digit string that is
lexicographically at least the lower bound (when one is given) and at
most the upper bound (when one is given); a candidate value that is not
an 8-digit token never satisfies the predicate. -/
theorem kvAccepts_dateRange_iff
    (kv : KVPair) (requested custom : List (String × String))
    (hmode : kv.mode = KVMode.dateRange) (_hinert : kvInert kv = false) :
    kvAccepts kv requested custom = true ↔
      ∃ mk0,
        mk0 ∈ (if kv.scope == KVScope.custom then custom else requested).map Prod.fst
        ∧ (jsToLower (jsTrim kv.key) = "" ∨
            jsIncludes (jsToLower mk0) (jsToLower (jsTrim kv.key)) = true)
        ∧ (jsTrim (jsGet (if kv.scope == KVScope.custom then custom else requested)
            mk0)).length = 8
        ∧ (jsTrim (jsGet (if kv.scope == KVScope.custom then custom else requested)
            mk0)).data.all Char.isDigit = true
        ∧ (jsTrim (kv.fromDate.getD "") = "" ∨
            jsStrLe (jsTrim (kv.fromDate.getD ""))
              (jsTrim (jsGet (if kv.scope == KVScope.custom then custom
                else requested) mk0)) = true)
        ∧ (jsTrim (kv.toDate.getD "") = "" ∨
            jsStrLe (jsTrim (jsGet (if kv.scope == KVScope.custom then custom
              else requested) mk0)) (jsTrim (kv.toDate.getD "")) = true) := by
  have hm : (kv.mode == KVMode.dateRange) = true := beq_iff_eq.mpr hmode
  unfold kvAccepts
  dsimp only
  rw [hm]
  simp only [if_true, if_isEmpty_any]
  by_cases hl : jsToLower (jsTrim kv.key) = ""
  · have hl' : (jsToLower (jsTrim kv.key) != "") = false := by
      rw [hl]; rfl
    rw [hl']
    simp only [Bool.false_eq_true, if_false]
    rw [List.any_eq_true]
    constructor
    · rintro ⟨mk0, hmk, hf⟩
      obtain ⟨h1, h2, h3, h4⟩ := (dateCheck_iff _ _ _).mp hf
      exact ⟨mk0, hmk, Or.inl hl, h1, h2, h3, h4⟩
    · rintro ⟨mk0, hmk, -, h1, h2, h3, h4⟩
      exact ⟨mk0, hmk, (dateCheck_iff _ _ _).mpr ⟨h1, h2, h3, h4⟩⟩
  · have hl' : (jsToLower (jsTrim kv.key) != "") = true := by
      cases he : (jsToLower (jsTrim kv.key) == "")
      · simp [bne, he]
      · exact absurd (beq_iff_eq.mp he) hl
    rw [hl']
    simp only [if_true]
    rw [List.any_eq_true]
    constructor
    · rintro ⟨mk0, hmk, hf⟩
      rw [List.mem_filter] at hmk
      obtain ⟨h1, h2, h3, h4⟩ := (dateCheck_iff _ _ _).mp hf
      exact ⟨mk0, hmk.1, Or.inr hmk.2, h1, h2, h3, h4⟩
    · rintro ⟨mk0, hmk, hdisj, h1, h2, h3, h4⟩
      rcases hdisj with h | h
      · exact absurd h hl
      · exact ⟨mk0, List.mem_filter.mpr ⟨hmk, h⟩,
          (dateCheck_iff _ _ _).mpr ⟨h1, h2, h3, h4⟩⟩

/-- Witness for C8, the specification's example: the predicate
`SeriesDate` in `[20240101, 20240131]` accepts a row with
`SeriesDate=20240115` and rejects one with `SeriesDate=20240201`. -/
theorem kvAccepts_dateRange_iff_witness :
    kvAccepts dateKv [("SeriesDate", "20240115")] [] = true ∧
    kvAccepts dateKv [("SeriesDate", "20240201")] [] = false := by
  constructor
  · exact (kvAccepts_dateRange_iff dateKv [("SeriesDate", "20240115")] [] rfl
      (by decide)).mpr ⟨"SeriesDate", by decide, by decide, by decide, by decide,
        by decide, by decide⟩
  · have h := kvAccepts_dateRange_iff dateKv [("SeriesDate", "20240201")] [] rfl
      (by decide)
    cases hc : kvAccepts dateKv [("SeriesDate", "20240201")] []
    · rfl
    · exact absurd (h.mp hc) (by decide)

/-- C9: a non-inert predicate with a non-empty key filter that matches
no key of its selected namespace (case-insensitively, as a substring)
excludes the row from the filter result, whatever its match mode, value
or date bounds. -/
theorem visibleRows_excludes_unmatched_key_filter
    (series : List SeriesRowData) (query : String) (adv : AdvancedFilterState)
    (r : SeriesRowData) (kv : KVPair)
    (hmem : kv ∈ adv.kvPairs)
    (hinert : kvInert kv = false)
    (hlhs : jsToLower (jsTrim kv.key) ≠ "")
    (hkeys : ∀ k0 ∈ (if kv.scope == KVScope.custom then r.customTags
        else r.requestedTags).map Prod.fst,
      jsIncludes (jsToLower k0) (jsToLower (jsTrim kv.key)) = false) :
    r ∉ visibleRows series query adv := by
  have hacc : kvAccepts kv r.requestedTags r.customTags = false := by
    unfold kvAccepts
    dsimp only
    have hlhs' : (jsToLower (jsTrim kv.key) != "") = true := by
      cases he : (jsToLower (jsTrim kv.key) == "")
      · simp [bne, he]
      · exact absurd (beq_iff_eq.mp he) hlhs
    rw [hlhs']
    simp only [if_true]
    have hfil : List.filter
        (fun k => jsIncludes (jsToLower k) (jsToLower (jsTrim kv.key)))
        ((if kv.scope == KVScope.custom then r.customTags
          else r.requestedTags).map Prod.fst) = [] := by
      rw [List.filter_eq_nil_iff]
      intro k0 hk0
      rw [hkeys k0 hk0]
      simp
    rw [hfil]
    rfl
  intro hr
  have husable : adv.kvPairs.any kvUsable = true :=
    List.any_eq_true.mpr ⟨kv, hmem, by rw [kvUsable_eq_not_inert, hinert]; rfl⟩
  unfold visibleRows at hr
  dsimp only at hr
  rw [husable] at hr
  simp only [Bool.not_true, Bool.and_false, Bool.false_eq_true, if_false] at hr
  have hp := (List.mem_filter.mp hr).2
  unfold rowPasses at hp
  rw [Bool.and_eq_true] at hp
  have hall := hp.1
  rw [List.all_eq_true] at hall
  have hkv := hall kv hmem
  rw [hinert, hacc] at hkv
  simp at hkv

/-- Witness for C9: a contains-predicate on the absent key
`Nonexistent` removes `dateRow` from the result. -/
theorem visibleRows_excludes_unmatched_key_filter_witness :
    dateRow ∉ visibleRows [dateRow] "" ⟨[missKv]⟩ :=
  visibleRows_excludes_unmatched_key_filter [dateRow] "" ⟨[missKv]⟩ dateRow missKv
    (by decide) (by decide) (by decide) (by decide)

/-- C6: the dual-mode writer tries the plain JSON-text encoding first;
the legacy double-encoded form is attempted only when the server rejects
the plain attempt with a response; an accepted first attempt ends the
write and is its result, and an accepted second attempt is the result
after a rejected first; every attempt carries the If-Match header
exactly when a usable version token was supplied by the preceding
read. -/
theorem writeDual_encoding_order (env : WriteEnv)
    (bodyObject : List (String × Json)) (etag : Option String) :
    ((writeMetadata4096DualMode env bodyObject etag).1.head? =
        some ⟨"text/plain; charset=utf-8", ifMatchOf etag, bodyPlain bodyObject⟩)
    ∧ (∀ a, env.attemptA = some a → respOk a = true →
        writeMetadata4096DualMode env bodyObject etag =
          ([⟨"text/plain; charset=utf-8", ifMatchOf etag, bodyPlain bodyObject⟩],
            .ok a))
    ∧ (∀ a b, env.attemptA = some a → respOk a = false → env.attemptB = some b →
        writeMetadata4096DualMode env bodyObject etag =
          ([⟨"text/plain; charset=utf-8", ifMatchOf etag, bodyPlain bodyObject⟩,
            ⟨"application/json", ifMatchOf etag, bodyLegacy bodyObject⟩], .ok b))
    ∧ ((⟨"application/json", ifMatchOf etag, bodyLegacy bodyObject⟩ : PutRequest)
          ∈ (writeMetadata4096DualMode env bodyObject etag).1 →
        ∃ a, env.attemptA = some a ∧ respOk a = false)
    ∧ (∀ req ∈ (writeMetadata4096DualMode env bodyObject etag).1,
        req.ifMatch = ifMatchOf etag)
    ∧ (∀ e, etag = some e → e ≠ "" →
        ∀ req ∈ (writeMetadata4096DualMode env bodyObject etag).1,
          req.ifMatch = some e) := by
  refine ⟨writeDual_head env bodyObject etag, ?_, ?_, ?_,
    fun req h => writeDual_ifMatch env bodyObject etag req h, ?_⟩
  · intro a ha hok
    obtain ⟨attA, attB⟩ := env
    simp only at ha
    subst ha
    unfold writeMetadata4096DualMode
    simp [hok]
  · intro a b ha hok hb
    obtain ⟨attA, attB⟩ := env
    simp only at ha hb
    subst ha
    subst hb
    unfold writeMetadata4096DualMode
    simp [hok]
  · obtain ⟨attA, attB⟩ := env
    unfold writeMetadata4096DualMode
    dsimp only
    cases attA with
    | none =>
      intro h
      simp at h
    | some a =>
      by_cases hok : respOk a = true
      · simp only [hok, if_true]
        intro h
        simp at h
      · have hok' : respOk a = false := by revert hok; cases respOk a <;> simp
        intro _
        exact ⟨a, rfl, hok'⟩
  · intro e he hne req hreq
    rw [writeDual_ifMatch env bodyObject etag req hreq, he]
    have hne' : (e == "") = false := beq_eq_false_iff_ne.mpr hne
    simp [ifMatchOf, hne']

/-- Witness for C6: a rejected plain attempt followed by an accepted
legacy attempt, under version token `t1`. -/
theorem writeDual_encoding_order_witness :
    writeMetadata4096DualMode ⟨some ⟨500, "", none⟩, some ok200⟩ [] (some "t1") =
      ([⟨"text/plain; charset=utf-8", some "t1", bodyPlain []⟩,
        ⟨"application/json", some "t1", bodyLegacy []⟩], .ok ok200) := by
  have h := (writeDual_encoding_order ⟨some ⟨500, "", none⟩, some ok200⟩ []
    (some "t1")).2.2.1 ⟨500, "", none⟩ ok200 rfl (by decide) rfl
  exact h

/-- C1 (amended): the merge-safe writers — the cache-based revision's
putSeriesCustomTags (lines 696-720) and the direct revision's (lines
1074-1097) — perform a read-merge-write: the document offered to the
server (under both encodings) is the object spread of the read-back
current document with the patch, where the patch wins on every colliding
key and keys present only in the current document survive.  The earliest
revision's putSeriesCustomTags (lines 205-219) is exempt: it is a blind
overwrite of the stored document by the patch (see the
counterexample). -/
theorem putSeriesCustomTags_read_merge_write
    (env : ClientEnv) (cache : CacheMap) (sid : String)
    (current patch : List (String × String)) (etag : Option String)
    (hread : (getSeriesCustomTagsWithEtagV2 env.read cache sid).outcome
      = .ok (Json.obj (strEntries current), etag))
    (hpatch : (patch.map Prod.fst).Nodup) :
    ((putSeriesCustomTagsV2 env cache sid (strEntries patch)).puts.head? =
        some ⟨"text/plain; charset=utf-8", ifMatchOf etag,
          bodyPlain (strEntries (objSpread current patch))⟩)
    ∧ (∀ req ∈ (putSeriesCustomTagsV2 env cache sid (strEntries patch)).puts,
        req.body = bodyPlain (strEntries (objSpread current patch)) ∨
        req.body = bodyLegacy (strEntries (objSpread current patch)))
    ∧ (∀ k, olookup k (objSpread current patch) =
        optOr (olookup k patch) (olookup k current))
    ∧ (∀ env3 : V3PutEnv,
        getSeriesCustomTagsWithEtagV3 env3.readFetch
          = .ok (Json.obj (strEntries current), etag) →
        ∀ req, (putSeriesCustomTagsV3 env3 (strEntries patch)).1 = some req →
          req.body = bodyPlain (strEntries (objSpread current patch))) := by
  have hputs := putV2_puts_eq env cache sid (strEntries patch)
    (Json.obj (strEntries current)) etag hread
  have hmerged : objSpread (jsOwnFields (Json.obj (strEntries current)))
      (strEntries patch) = strEntries (objSpread current patch) := by
    unfold jsOwnFields
    exact strEntries_objSpread current patch
  rw [hmerged] at hputs
  refine ⟨?_, ?_, ?_, ?_⟩
  · rw [hputs]
    exact writeDual_head env.write (strEntries (objSpread current patch)) etag
  · intro req hreq
    rw [hputs] at hreq
    exact writeDual_bodies env.write (strEntries (objSpread current patch))
      etag req hreq
  · intro k
    exact olookup_objSpread current patch k hpatch
  · intro env3 hread3 req hreq
    obtain ⟨rf, pf⟩ := env3
    unfold putSeriesCustomTagsV3 at hreq
    simp only at hread3
    rw [hread3] at hreq
    dsimp only at hreq
    rw [hmerged] at hreq
    cases pf with
    | none =>
      simp only [Option.some.injEq] at hreq
      subst hreq
      rfl
    | some res =>
      simp only [Option.some.injEq] at hreq
      subst hreq
      rfl

/-- Counterexample for C1: the earliest revision's putSeriesCustomTags
(lines 205-219) PUTs the patch alone without reading or merging.  With
stored current document `\x7b"a":"1"\x7d` and patch `\x7b"b":"2"\x7d`
the accepted write's body decodes to `\x7b"b":"2"\x7d`, not to the
claimed union `\x7b"a":"1","b":"2"\x7d`, so key `a` does not survive. -/
theorem putSeriesCustomTagsV1_blind_overwrite :
    (putSeriesCustomTagsV1 (some ok200) (strEntries [("b", "2")])).2 = .ok ()
    ∧ parseRaw (putSeriesCustomTagsV1 (some ok200) (strEntries [("b", "2")])).1.body
        = Json.obj [("b", Json.str "2")]
    ∧ olookup "a" (jsOwnFields
        (parseRaw (putSeriesCustomTagsV1 (some ok200) (strEntries [("b", "2")])).1.body))
        = none
    ∧ olookup "a" (objSpread [("a", "1")] [("b", "2")]) = some "1" :=
  ⟨rfl, rfl, rfl, rfl⟩

/-- Witness for C1: current document `\x7ba:1\x7d`, patch `\x7bb:2\x7d`:
both keys reach the written body with the patch's value on `b`, and the
plain-encoded body is offered first. -/
theorem putSeriesCustomTags_read_merge_write_witness :
    olookup "a" (objSpread [("a", "1")] [("b", "2")]) = some "1"
    ∧ olookup "b" (objSpread [("a", "1")] [("b", "2")]) = some "2"
    ∧ (putSeriesCustomTagsV2 mergeWriteEnv [("s", true)] "s"
        (strEntries [("b", "2")])).puts.head? =
      some ⟨"text/plain; charset=utf-8", none,
        bodyPlain (strEntries (objSpread [("a", "1")] [("b", "2")]))⟩ := by
  have h := putSeriesCustomTags_read_merge_write mergeWriteEnv [("s", true)] "s"
    [("a", "1")] [("b", "2")] none rfl (by decide)
  refine ⟨?_, ?_, h.1⟩
  · rw [h.2.2.1 "a"]; rfl
  · rw [h.2.2.1 "b"]; rfl

/-- C2 (amended): the raw stored text is JSON-parsed once; if the result
is a string it is parsed a second time; the final value is returned when
it is truthy and of JavaScript object type — which admits both JSON
objects and JSON arrays (an array passes through unchanged instead of
yielding the empty document, see the counterexample); a number, boolean,
null, second-stage string or a parse failure at either stage yields the
empty document; and the same two-stage parse is what every read path
(V1, V2 and V3) applies to an accepted response body. -/
theorem parseRaw_two_stage_spec (raw : String) :
    (jsonParse raw = none → parseRaw raw = Json.obj [])
    ∧ (∀ fs, jsonParse raw = some (Json.obj fs) → parseRaw raw = Json.obj fs)
    ∧ (∀ xs, jsonParse raw = some (Json.arr xs) → parseRaw raw = Json.arr xs)
    ∧ (∀ n, jsonParse raw = some (Json.num n) → parseRaw raw = Json.obj [])
    ∧ (∀ b, jsonParse raw = some (Json.bool b) → parseRaw raw = Json.obj [])
    ∧ (jsonParse raw = some Json.null → parseRaw raw = Json.obj [])
    ∧ (∀ s, jsonParse raw = some (Json.str s) → jsonParse s = none →
        parseRaw raw = Json.obj [])
    ∧ (∀ s fs, jsonParse raw = some (Json.str s) →
        jsonParse s = some (Json.obj fs) → parseRaw raw = Json.obj fs)
    ∧ (∀ s xs, jsonParse raw = some (Json.str s) →
        jsonParse s = some (Json.arr xs) → parseRaw raw = Json.arr xs)
    ∧ (∀ s v, jsonParse raw = some (Json.str s) → jsonParse s = some v →
        (jsTruthy v && jsTypeofObject v) = false → parseRaw raw = Json.obj [])
    ∧ (∀ resp : HttpResponse, resp.status ≠ 404 → respOk resp = true →
        resp.body ≠ "" →
        getSeriesCustomTagsWithEtagV3 (some resp)
          = .ok (parseRaw resp.body, resp.etag))
    ∧ (∀ (idx : Option HttpResponse) (cache : CacheMap) (sid : String)
        (resp : HttpResponse), cacheGet cache sid = some true →
        respOk resp = true →
        (getSeriesCustomTagsWithEtagV2 ⟨idx, some resp⟩ cache sid).outcome
          = .ok (parseRaw (jsTrim resp.body), resp.etag))
    ∧ (∀ (idxResp valueResp : HttpResponse) (idxJson : Json),
        respOk idxResp = true → jsonParse idxResp.body = some idxJson →
        jsHasOwn (match idxJson with | Json.null => Json.obj [] | x => x)
          "4096" = true →
        respOk valueResp = true → valueResp.body ≠ "" →
        getSeriesCustomTagsV1 ⟨some idxResp, some valueResp⟩
          = .ok (parseRaw valueResp.body)) := by
  refine ⟨?_, ?_, ?_, ?_, ?_, ?_, ?_, ?_, ?_, ?_, ?_, ?_, ?_⟩
  · intro h; unfold parseRaw; rw [h]
  · intro fs h; unfold parseRaw; rw [h]; rfl
  · intro xs h; unfold parseRaw; rw [h]; rfl
  · intro n h; unfold parseRaw; rw [h]
    simp [jsTypeofObject]
  · intro b h; unfold parseRaw; rw [h]
    cases b <;> rfl
  · intro h; unfold parseRaw; rw [h]; rfl
  · intro s h1 h2; unfold parseRaw; rw [h1]; dsimp only; rw [h2]
  · intro s fs h1 h2; unfold parseRaw; rw [h1]; dsimp only; rw [h2]; rfl
  · intro s xs h1 h2; unfold parseRaw; rw [h1]; dsimp only; rw [h2]; rfl
  · intro s v h1 h2 hv; unfold parseRaw; rw [h1]; dsimp only; rw [h2]
    dsimp only
    rw [hv]
    rfl
  · intro resp hst hok hbody
    unfold getSeriesCustomTagsWithEtagV3
    have hst' : (resp.status == 404) = false := by
      apply beq_eq_false_iff_ne.mpr; exact hst
    have hbody' : (resp.body == "") = false := beq_eq_false_iff_ne.mpr hbody
    dsimp only
    rw [hst']
    simp only [Bool.false_eq_true, if_false, hok, Bool.not_true, hbody']
  · intro idx cache sid resp hcache hok
    unfold getSeriesCustomTagsWithEtagV2
    rw [hcache]
    simp only [beq_self_eq_true, if_true]
    rw [hok]
    rfl
  · intro idxResp valueResp idxJson hokidx hparse hhas hokval hbody
    unfold getSeriesCustomTagsV1
    dsimp only
    rw [hokidx]
    simp only [Bool.not_true, Bool.false_eq_true, if_false]
    rw [hparse]
    dsimp only
    rw [hhas]
    simp only [Bool.not_true, Bool.false_eq_true, if_false]
    rw [hokval]
    have hbody' : (valueResp.body == "") = false := beq_eq_false_iff_ne.mpr hbody
    simp only [Bool.not_true, Bool.false_eq_true, if_false, hbody']

/-- Counterexample for C2: a stored JSON array is returned as-is by the
two-stage parse — it is of JavaScript object type — where the claim says
every non-object shape, arrays included, yields the empty document. -/
theorem parseRaw_array_passthrough :
    jsonParse "[1]" = some (Json.arr [Json.num 1])
    ∧ parseRaw "[1]" = Json.arr [Json.num 1]
    ∧ (parseRaw "[1]").isObj = false
    ∧ (Json.obj ([] : List (String × Json))).isObj = true :=
  ⟨rfl, rfl, rfl, rfl⟩

/-- Witness for C2: the legacy double-encoded document
`"\x7b\"k\":\"v\"\x7d"` decodes through both parse stages to the
object `\x7bk:v\x7d`. -/
theorem parseRaw_two_stage_spec_witness :
    parseRaw doubleEncodedKV = Json.obj [("k", Json.str "v")] :=
  (parseRaw_two_stage_spec doubleEncodedKV).2.2.2.2.2.2.2.1
    (Json.stringify (Json.obj [("k", Json.str "v")])) [("k", Json.str "v")]
    rfl rfl

/-- C3 (code bug): the direct revision's deleteSeriesCustomTag (lines
1111-1118) removes the key locally but then calls the merge-safe
putSeriesCustomTags, which re-reads the still-unmodified stored document
and merges the key-removed document into it — so the deleted key
survives with its old value.  Against a stable server holding
`\x7b"a":"1","b":"2"\x7d`, deleting `a` succeeds yet writes back the
full original document rather than `\x7b"b":"2"\x7d`. -/
theorem deleteSeriesCustomTagV3_keeps_deleted_key :
    (deleteSeriesCustomTagV3 v3DeleteBugEnv "a").2 = .ok ()
    ∧ (deleteSeriesCustomTagV3 v3DeleteBugEnv "a").1
        = some ⟨"text/plain; charset=utf-8", none, storedAB⟩
    ∧ olookup "a" (jsOwnFields (parseRaw storedAB)) = some (Json.str "1") :=
  ⟨rfl, rfl, rfl⟩

/-- C4 (amended): only a cached true short-circuits the existence probe
— a read under a cached true issues exactly the direct key GET, while a
read under a cached false (or no entry) still requests the metadata
index before the key GET; after a successful putSeriesCustomTags or
setSeriesCustomTag the cache holds true for the series, and
deleteSeriesCustomTag leaves the cache exactly as its read phase left
it. -/
theorem existence_cache_behavior :
    (∀ (env : ReadEnv) (cache : CacheMap) (sid : String),
      cacheGet cache sid = some true →
      (getSeriesCustomTagsWithEtagV2 env cache sid).trace = [ReqKind.keyGet])
    ∧ (∀ (env : ReadEnv) (cache : CacheMap) (sid : String),
      cacheGet cache sid ≠ some true →
      (getSeriesCustomTagsWithEtagV2 env cache sid).trace
        = [ReqKind.indexReq, ReqKind.keyGet])
    ∧ (∀ (env : ClientEnv) (cache : CacheMap) (sid : String)
        (tags : List (String × Json)),
      (putSeriesCustomTagsV2 env cache sid tags).outcome = .ok () →
      cacheGet (putSeriesCustomTagsV2 env cache sid tags).cache sid = some true)
    ∧ (∀ (env : ClientEnv) (cache : CacheMap) (sid tagName value : String),
      (setSeriesCustomTagV2 env cache sid tagName value).outcome = .ok () →
      cacheGet (setSeriesCustomTagV2 env cache sid tagName value).cache sid
        = some true)
    ∧ (∀ (env : ClientEnv) (cache : CacheMap) (sid tagName : String),
      (deleteSeriesCustomTagV2 env cache sid tagName).cache
        = (getSeriesCustomTagsWithEtagV2 env.read cache sid).cache) := by
  refine ⟨readV2_trace_cached_true, readV2_trace_not_cached_true, ?_, ?_, ?_⟩
  · intro env cache sid tags hok
    unfold putSeriesCustomTagsV2 at hok ⊢
    dsimp only at hok ⊢
    cases hro : (getSeriesCustomTagsWithEtagV2 env.read cache sid).outcome with
    | error e => rw [hro] at hok; simp at hok
    | ok val =>
      obtain ⟨cur, etag⟩ := val
      rw [hro] at hok
      dsimp only at hok ⊢
      rcases hw : writeMetadata4096DualMode env.write
        (objSpread (jsOwnFields cur) tags) etag with ⟨reqs, wres⟩
      rw [hw] at hok
      dsimp only at hok ⊢
      cases wres with
      | error e => simp at hok
      | ok res =>
        by_cases hr : respOk res = true
        · simp only [hr, if_true]
          exact cacheGet_cacheSet _ _ _
        · have hr' : respOk res = false := by revert hr; cases respOk res <;> simp
          simp [hr'] at hok
  · intro env cache sid tagName value hok
    unfold setSeriesCustomTagV2 at hok ⊢
    dsimp only at hok ⊢
    cases hro : (getSeriesCustomTagsWithEtagV2 env.read cache sid).outcome with
    | error e => rw [hro] at hok; simp at hok
    | ok val =>
      obtain ⟨cur, etag⟩ := val
      rw [hro] at hok
      dsimp only at hok ⊢
      rcases hw : writeMetadata4096DualMode env.write
        (objSpread (jsOwnFields cur) [(tagName, Json.str value)]) etag
        with ⟨reqs, wres⟩
      rw [hw] at hok
      dsimp only at hok ⊢
      cases wres with
      | error e => simp at hok
      | ok res =>
        by_cases hr : respOk res = true
        · simp only [hr, if_true]
          exact cacheGet_cacheSet _ _ _
        · have hr' : respOk res = false := by revert hr; cases respOk res <;> simp
          simp [hr'] at hok
  · intro env cache sid tagName
    unfold deleteSeriesCustomTagV2
    dsimp only
    cases hro : (getSeriesCustomTagsWithEtagV2 env.read cache sid).outcome with
    | error e => rfl
    | ok val =>
      obtain ⟨cur, etag⟩ := val
      dsimp only
      rcases hw : writeMetadata4096DualMode env.write
        ((jsOwnFields cur).filter (fun p => ! (p.1 == tagName))) etag
        with ⟨reqs, wres⟩
      cases wres with
      | error e => rfl
      | ok res =>
        dsimp only
        split <;> rfl

/-- Counterexample for C4: a first read of an absent key confirms
not-found (the cache flips to false), yet the next read for the same
series requests the metadata index before attempting the direct key
GET — the cached false does not short-circuit the probe. -/
theorem readV2_probes_index_after_not_found :
    (getSeriesCustomTagsWithEtagV2 notFoundProbeEnv [] "s").cache = [("s", false)]
    ∧ (getSeriesCustomTagsWithEtagV2 notFoundProbeEnv
        ((getSeriesCustomTagsWithEtagV2 notFoundProbeEnv [] "s").cache) "s").trace
        = [ReqKind.indexReq, ReqKind.keyGet]
    ∧ (getSeriesCustomTagsWithEtagV2 notFoundProbeEnv
        ((getSeriesCustomTagsWithEtagV2 notFoundProbeEnv [] "s").cache) "s").trace.head?
        = some ReqKind.indexReq :=
  ⟨rfl, rfl, rfl⟩

/-- Witness for C4: a cached true goes straight to the key GET, and a
successful put leaves the cache at true. -/
theorem existence_cache_behavior_witness :
    (getSeriesCustomTagsWithEtagV2 notFoundProbeEnv [("s", true)] "s").trace
      = [ReqKind.keyGet]
    ∧ cacheGet (putSeriesCustomTagsV2 mergeWriteEnv [("s", true)] "s" []).cache "s"
      = some true :=
  ⟨existence_cache_behavior.1 notFoundProbeEnv [("s", true)] "s" rfl,
   existence_cache_behavior.2.2.1 mergeWriteEnv [("s", true)] "s" [] rfl⟩

/-- C5 (amended): a metadata read returns the empty document (rather
than throwing) on every resolved non-success response — 404 or any
other non-2xx status — but a transport-level rejection of the direct key
GET propagates as an exception (only index-probe failures are
swallowed); a metadata write (put, set single tag, delete single tag)
succeeds exactly when its read phase resolves and one of the two
encoding attempts is accepted, and throws on every other outcome,
including both encoding attempts being rejected. -/
theorem read_fail_closed_write_throws :
    (∀ (idx : Option HttpResponse) (resp : HttpResponse) (cache : CacheMap)
        (sid : String),
      ∃ v, (getSeriesCustomTagsWithEtagV2 ⟨idx, some resp⟩ cache sid).outcome
        = .ok v)
    ∧ (∀ (idx : Option HttpResponse) (resp : HttpResponse) (cache : CacheMap)
        (sid : String), respOk resp = false →
      (getSeriesCustomTagsWithEtagV2 ⟨idx, some resp⟩ cache sid).outcome
        = .ok (Json.obj [], none))
    ∧ (∀ (env : ClientEnv) (cache : CacheMap) (sid : String)
        (tags : List (String × Json)),
      (putSeriesCustomTagsV2 env cache sid tags).outcome = .ok () ↔
        ((∃ v, (getSeriesCustomTagsWithEtagV2 env.read cache sid).outcome = .ok v)
          ∧ acceptedAttempt env.write))
    ∧ (∀ (env : ClientEnv) (cache : CacheMap) (sid tagName value : String),
      (setSeriesCustomTagV2 env cache sid tagName value).outcome = .ok () ↔
        ((∃ v, (getSeriesCustomTagsWithEtagV2 env.read cache sid).outcome = .ok v)
          ∧ acceptedAttempt env.write))
    ∧ (∀ (env : ClientEnv) (cache : CacheMap) (sid tagName : String),
      (deleteSeriesCustomTagV2 env cache sid tagName).outcome = .ok () ↔
        ((∃ v, (getSeriesCustomTagsWithEtagV2 env.read cache sid).outcome = .ok v)
          ∧ acceptedAttempt env.write)) := by
  refine ⟨readV2_ok_of_keyFetch, readV2_fail_closed, ?_, ?_, ?_⟩
  · intro env cache sid tags
    constructor
    · intro hok
      unfold putSeriesCustomTagsV2 at hok
      dsimp only at hok
      cases hro : (getSeriesCustomTagsWithEtagV2 env.read cache sid).outcome with
      | error e => rw [hro] at hok; simp at hok
      | ok val =>
        obtain ⟨cur, etag⟩ := val
        rw [hro] at hok
        dsimp only at hok
        rcases hw : writeMetadata4096DualMode env.write
          (objSpread (jsOwnFields cur) tags) etag with ⟨reqs, wres⟩
        rw [hw] at hok
        dsimp only at hok
        cases wres with
        | error e => simp at hok
        | ok res =>
          by_cases hr : respOk res = true
          · exact ⟨⟨_, rfl⟩, (writeDual_ok_iff env.write
              (objSpread (jsOwnFields cur) tags) etag).mp
              ⟨res, by rw [hw], hr⟩⟩
          · have hr' : respOk res = false := by
              revert hr; cases respOk res <;> simp
            simp [hr'] at hok
    · rintro ⟨⟨v, hro⟩, hacc⟩
      obtain ⟨cur, etag⟩ := v
      unfold putSeriesCustomTagsV2
      dsimp only
      rw [hro]
      dsimp only
      obtain ⟨res, hres, hr⟩ := (writeDual_ok_iff env.write
        (objSpread (jsOwnFields cur) tags) etag).mpr hacc
      rcases hw : writeMetadata4096DualMode env.write
        (objSpread (jsOwnFields cur) tags) etag with ⟨reqs, wres⟩
      rw [hw] at hres
      dsimp only at hres
      subst hres
      dsimp only
      rw [hr]
      rfl
  · intro env cache sid tagName value
    constructor
    · intro hok
      unfold setSeriesCustomTagV2 at hok
      dsimp only at hok
      cases hro : (getSeriesCustomTagsWithEtagV2 env.read cache sid).outcome with
      | error e => rw [hro] at hok; simp at hok
      | ok val =>
        obtain ⟨cur, etag⟩ := val
        rw [hro] at hok
        dsimp only at hok
        rcases hw : writeMetadata4096DualMode env.write
          (objSpread (jsOwnFields cur) [(tagName, Json.str value)]) etag
          with ⟨reqs, wres⟩
        rw [hw] at hok
        dsimp only at hok
        cases wres with
        | error e => simp at hok
        | ok res =>
          by_cases hr : respOk res = true
          · exact ⟨⟨_, rfl⟩, (writeDual_ok_iff env.write
              (objSpread (jsOwnFields cur) [(tagName, Json.str value)]) etag).mp
              ⟨res, by rw [hw], hr⟩⟩
          · have hr' : respOk res = false := by
              revert hr; cases respOk res <;> simp
            simp [hr'] at hok
    · rintro ⟨⟨v, hro⟩, hacc⟩
      obtain ⟨cur, etag⟩ := v
      unfold setSeriesCustomTagV2
      dsimp only
      rw [hro]
      dsimp only
      obtain ⟨res, hres, hr⟩ := (writeDual_ok_iff env.write
        (objSpread (jsOwnFields cur) [(tagName, Json.str value)]) etag).mpr hacc
      rcases hw : writeMetadata4096DualMode env.write
        (objSpread (jsOwnFields cur) [(tagName, Json.str value)]) etag
        with ⟨reqs, wres⟩
      rw [hw] at hres
      dsimp only at hres
      subst hres
      dsimp only
      rw [hr]
      rfl
  · intro env cache sid tagName
    constructor
    · intro hok
      unfold deleteSeriesCustomTagV2 at hok
      dsimp only at hok
      cases hro : (getSeriesCustomTagsWithEtagV2 env.read cache sid).outcome with
      | error e => rw [hro] at hok; simp at hok
      | ok val =>
        obtain ⟨cur, etag⟩ := val
        rw [hro] at hok
        dsimp only at hok
        rcases hw : writeMetadata4096DualMode env.write
          ((jsOwnFields cur).filter (fun p => ! (p.1 == tagName))) etag
          with ⟨reqs, wres⟩
        rw [hw] at hok
        dsimp only at hok
        cases wres with
        | error e => simp at hok
        | ok res =>
          by_cases hr : respOk res = true
          · exact ⟨⟨_, rfl⟩, (writeDual_ok_iff env.write
              ((jsOwnFields cur).filter (fun p => ! (p.1 == tagName))) etag).mp
              ⟨res, by rw [hw], hr⟩⟩
          · have hr' : respOk res = false := by
              revert hr; cases respOk res <;> simp
            simp [hr'] at hok
    · rintro ⟨⟨v, hro⟩, hacc⟩
      obtain ⟨cur, etag⟩ := v
      unfold deleteSeriesCustomTagV2
      dsimp only
      rw [hro]
      dsimp only
      obtain ⟨res, hres, hr⟩ := (writeDual_ok_iff env.write
        ((jsOwnFields cur).filter (fun p => ! (p.1 == tagName))) etag).mpr hacc
      rcases hw : writeMetadata4096DualMode env.write
        ((jsOwnFields cur).filter (fun p => ! (p.1 == tagName))) etag
        with ⟨reqs, wres⟩
      rw [hw] at hres
      dsimp only at hres
      subst hres
      dsimp only
      rw [hr]
      rfl

/-- Counterexample for C5: with the key marked existing in the cache, a
transport-level rejection of the direct key GET makes the read throw
instead of returning an empty document. -/
theorem readV2_throws_on_transport_failure :
    (getSeriesCustomTagsWithEtagV2 ⟨none, none⟩ [("s", true)] "s").outcome
      = .error () := rfl

/-- Witness for C5: a 404 read fails closed to the empty document, and a
put whose read resolves and whose plain attempt is accepted succeeds. -/
theorem read_fail_closed_write_throws_witness :
    (getSeriesCustomTagsWithEtagV2 ⟨none, some notFound404⟩ [] "s").outcome
      = .ok (Json.obj [], none)
    ∧ (putSeriesCustomTagsV2 mergeWriteEnv [("s", true)] "s" []).outcome
      = .ok () := by
  constructor
  · exact read_fail_closed_write_throws.2.1 none notFound404 [] "s" (by decide)
  · exact (read_fail_closed_write_throws.2.2.1 mergeWriteEnv
      [("s", true)] "s" []).mpr ⟨⟨_, rfl⟩, Or.inl ⟨ok200, rfl, by decide⟩⟩

end Orthanc
